import Mathlib

/-!
Verification development for the podman-wsl-service repository.

The repository ships two implementations of the same Unix-socket reverse
proxy: a Go program (`cmd/podman-wsl-service`, `pkg/proxy`, `pkg/wslpath`,
with an older variant of `proxy.go` also present in the tree) and a Node.js
program (`index.mjs`).  This file gives a shallow embedding of the pure
parts of both implementations that the checked claims are about:

* the Go string/path helpers (`strings.HasPrefix`, `strings.TrimLeft`,
  `strings.Split`, `path.Clean`, `path.Join`) used by `translateHostPath`;
* `translateHostPath`, `mangleLibpodVolumes`, `mangleDockerVolumes` (both
  the current variant and the older one), and the interception pipeline of
  `ServeHTTP` including its version-prefix regex;
* `TestUpstreamSocket` and the startup sequence of `main`;
* the read/write dispatch of `pkg/proxy` (`forwardData`, `ProxyFileConn`);
* the Node implementation's `translateHostPath`/`patchVolumesLibpod`
  (with Node's `path.join`) and its active-connection counter and
  idle-shutdown timer (`resetShutdownTimer` and the accept/close handlers).

External collaborators (the `wslpath` binary, the JSON decoder, sockets)
are modelled as explicit parameters; machine input/output never appears.
-/

namespace PodmanWsl

/-! ## Go string helpers -/

/-- Embedding of Go `strings.HasPrefix s pre`: `pre` is a prefix of `s`. -/
def hasPref (s pre : String) : Bool :=
  pre.toList.isPrefixOf s.toList

/-- Embedding of Go `strings.TrimLeft(s, "/")` (the only cutset used by the
program): remove every leading `'/'`. -/
def trimLeftSlash (s : String) : String :=
  String.mk (s.toList.dropWhile (fun c => c == '/'))

/-- Spec-side definition (for claim C2 only): the host path "with its leading
slash stripped once", as the spec words it. -/
def stripOnceSlash (s : String) : String :=
  if hasPref s "/" then String.mk (s.toList.drop 1) else s

/-- Splitting a character list at a separator character; `splitOnChar sep l`
always returns at least one (possibly empty) chunk, exactly like Go
`strings.Split` and the element scan of Go `path.Clean`. -/
def splitOnChar (sep : Char) : List Char → List (List Char)
  | [] => [[]]
  | c :: cs =>
    if c = sep then [] :: splitOnChar sep cs
    else
      match splitOnChar sep cs with
      | [] => [[c]]  -- unreachable: splitOnChar never returns []
      | e :: es => (c :: e) :: es

/-- Embedding of Go `strings.Split s (String.singleton sep)`. -/
def splitString (s : String) (sep : Char) : List String :=
  (splitOnChar sep s.toList).map String.mk

/-! ## Go `path.Clean` and `path.Join`

Go `path.Clean` is a single left-to-right scan; restated over the list of
`'/'`-separated elements it is: drop empty and `"."` elements, let `".."`
pop the previous element (when rooted, `".."` at the root is dropped; when
not rooted, unmatched `".."` accumulates), keep everything else; then
re-join with `'/'`, prefix `'/'` when rooted, and return `"."` (or `"/"`)
for an empty result. -/

/-- The element scan of Go `path.Clean` (`out` is the reversed output). -/
def cleanElems (rooted : Bool) : List (List Char) → List (List Char) → List (List Char)
  | out, [] => out.reverse
  | out, e :: es =>
    if e = [] ∨ e = ['.'] then cleanElems rooted out es
    else if e = ['.', '.'] then
      match out with
      | [] => if rooted then cleanElems rooted [] es else cleanElems rooted [['.', '.']] es
      | o :: out' =>
        if o = ['.', '.'] then cleanElems rooted (e :: o :: out') es
        else cleanElems rooted out' es
    else cleanElems rooted (e :: out) es

/-- The cleaned element list of a path, re-joined with `'/'` (the body of
Go `path.Clean` before the rooted/empty fix-ups). -/
def pathCleanBody (cs : List Char) : List Char :=
  List.intercalate ['/'] (cleanElems (decide (cs.head? = some '/')) [] (splitOnChar '/' cs))

/-- The rooted/empty fix-ups of Go `path.Clean` applied to the cleaned body. -/
def pathCleanCore (cs : List Char) : String :=
  if cs.head? = some '/' then String.mk ('/' :: pathCleanBody cs)
  else if pathCleanBody cs = [] then "."
  else String.mk (pathCleanBody cs)

/-- Embedding of Go `path.Clean`. -/
def pathClean (s : String) : String :=
  if s = "" then "." else pathCleanCore s.toList

/-- Embedding of Go `path.Join(a, b)`: join the non-empty arguments with
`"/"` and clean the result; all-empty input gives `""`. -/
def pathJoin (a b : String) : String :=
  if a ≠ "" then pathClean (a ++ "/" ++ b)
  else if b ≠ "" then pathClean b
  else ""

/-! ## The path translator (`translateHostPath`, proxy.go) -/

/-- Error outcomes of `translateHostPath`.  `collaborator` propagates an
error of the external `wslpath.ToWindows` collaborator; `badPathFormat` is
the "PODMAN WSL SERVICE BUG: unexpected path format, expected absolute
path" error built by `fmt.Errorf`. -/
inductive PathError where
  | collaborator (msg : String)
  | badPathFormat (p : String)
  deriving DecidableEq, Repr

/-- Embedding of `getSharedMountpoint` (main.go): the shared root handed to
`NewPodmanProxy`. -/
def getSharedMountpoint (distroName : String) : String :=
  "/mnt/wsl/distro-roots/" ++ distroName

/-- Embedding of `(p *podmanProxy) translateHostPath` (proxy.go).  The
external collaborator `wslpath.ToWindows` (which runs the `wslpath -aw`
binary) is the parameter `tw`. -/
def translateHostPath (tw : String → Except String String)
    (sharedRoot hostPath : String) : Except PathError String :=
  if hasPref hostPath "/mnt/wsl/" then .ok hostPath
  else
    match tw hostPath with
    | .error e => .error (.collaborator e)
    | .ok winPath =>
      if hasPref winPath "\\\\wsl.localhost\\" then
        -- Local WSL path
        if ¬ hasPref hostPath "/" then .error (.badPathFormat hostPath)
        else .ok (pathJoin sharedRoot (trimLeftSlash hostPath))
      else
        -- Windows path
        .ok winPath

/-! ## Go dynamic values

A request body decoded by `json.Decoder` into `map[string]interface` only
ever holds `nil`, `bool`, `json.Number` (the decoder calls `UseNumber()`),
`string`, slices of interface values and string-keyed maps of interface
values.  The two extra constructors `vstrArr` and `vmapsArr` represent the
Go types `[]string` and `[]map[string]string` that the two type assertions
in `mangleDockerVolumes` (older variant) and `mangleLibpodVolumes` test
for; the JSON decoder never produces them. -/

inductive GoVal where
  | vnull
  | vbool (b : Bool)
  | vnum (s : String)
  | vstr (s : String)
  | varr (xs : List GoVal)
  | vobj (kvs : List (String × GoVal))
  | vstrArr (ss : List String)
  | vmapsArr (ms : List (List (String × String)))

/-- Go map read `m[key]` returning `Option` (missing key is a nil
interface value, on which every type assertion fails). -/
def mapGet : List (String × GoVal) → String → Option GoVal
  | [], _ => none
  | (k, v) :: rest, key => if k = key then some v else mapGet rest key

/-- Go map write `m[key] = v`. -/
def mapSet : List (String × GoVal) → String → GoVal → List (String × GoVal)
  | [], key, v => [(key, v)]
  | (k, w) :: rest, key, v =>
    if k = key then (key, v) :: rest else (k, w) :: mapSet rest key v

/-- Go `map[string]string` read, returning the zero value `""` for a
missing key, exactly as `mount["type"]` and `mount["source"]` do. -/
def smapGet : List (String × String) → String → String
  | [], _ => ""
  | (k, v) :: rest, key => if k = key then v else smapGet rest key

/-- Go `map[string]string` write. -/
def smapSet : List (String × String) → String → String → List (String × String)
  | [], key, v => [(key, v)]
  | (k, w) :: rest, key, v =>
    if k = key then (key, v) :: rest else (k, w) :: smapSet rest key v

mutual

/-- Characterization of the values `encoding/json` decoding (with
`UseNumber`) can produce: the `vstrArr` and `vmapsArr` constructors never
appear. -/
def GoVal.isDecoded : GoVal → Bool
  | .vnull => true
  | .vbool _ => true
  | .vnum _ => true
  | .vstr _ => true
  | .varr xs => listDecoded xs
  | .vobj kvs => objDecoded kvs
  | .vstrArr _ => false
  | .vmapsArr _ => false

def listDecoded : List GoVal → Bool
  | [] => true
  | v :: vs => v.isDecoded && listDecoded vs

def objDecoded : List (String × GoVal) → Bool
  | [] => true
  | (_, v) :: kvs => v.isDecoded && objDecoded kvs

end

/-! ## The body rewriters (proxy.go and its older variant) -/

/-- The loop body of `mangleLibpodVolumes`: walk the `[]map[string]string`
slice, translating `mount["source"]` in place for entries whose
`mount["type"]` is `"bind"`, stopping at the first translation error. -/
def mangleMounts (tw : String → Except String String) (root : String) :
    List (List (String × String)) → Except PathError (List (List (String × String)))
  | [] => .ok []
  | m :: ms =>
    if smapGet m "type" ≠ "bind" then
      match mangleMounts tw root ms with
      | .error e => .error e
      | .ok ms' => .ok (m :: ms')
    else
      match translateHostPath tw root (smapGet m "source") with
      | .error e => .error e
      | .ok newHostPath =>
        match mangleMounts tw root ms with
        | .error e => .error e
        | .ok ms' => .ok (smapSet m "source" newHostPath :: ms')

/-- Embedding of `(p *podmanProxy) mangleLibpodVolumes` (proxy.go): the
type assertion `body["mounts"].([]map[string]string)` only succeeds on a
`vmapsArr` value; in every other case the body is returned unchanged with
a nil error. -/
def mangleLibpodVolumes (tw : String → Except String String) (root : String)
    (body : List (String × GoVal)) : Except PathError (List (String × GoVal)) :=
  match mapGet body "mounts" with
  | some (.vmapsArr ms) =>
    match mangleMounts tw root ms with
    | .error e => .error e
    | .ok ms' => .ok (mapSet body "mounts" (.vmapsArr ms'))
  | _ => .ok body

/-- The loop of `mangleDockerVolumes` (proxy.go): string entries are split
on `':'`, the first segment (`parts[0]`, total because `strings.Split`
never returns an empty slice) is translated and the parts are re-joined;
non-string entries are appended unchanged. -/
def mangleBinds (tw : String → Except String String) (root : String) :
    List GoVal → Except PathError (List GoVal)
  | [] => .ok []
  | b :: bs =>
    match b with
    | .vstr s =>
      match translateHostPath tw root ((splitString s ':').headI) with
      | .error e => .error e
      | .ok nh =>
        match mangleBinds tw root bs with
        | .error e => .error e
        | .ok bs' => .ok (.vstr (String.intercalate ":" (nh :: (splitString s ':').tail)) :: bs')
    | _ =>
      match mangleBinds tw root bs with
      | .error e => .error e
      | .ok bs' => .ok (b :: bs')

/-- Embedding of `(p *podmanProxy) mangleDockerVolumes` (proxy.go, the
current variant): missing `HostConfig`, a `HostConfig` that is not an
object, or a `Binds` that is not a `[]interface` slice all make the
function return the body unchanged with a nil error. -/
def mangleDockerVolumes (tw : String → Except String String) (root : String)
    (body : List (String × GoVal)) : Except PathError (List (String × GoVal)) :=
  match mapGet body "HostConfig" with
  | some (.vobj hostConfig) =>
    match mapGet hostConfig "Binds" with
    | some (.varr binds) =>
      match mangleBinds tw root binds with
      | .error e => .error e
      | .ok newBinds =>
        .ok (mapSet body "HostConfig" (.vobj (mapSet hostConfig "Binds" (.varr newBinds))))
    | _ => .ok body
  | _ => .ok body

/-- Error values of the older `mangleDockerVolumes` variant, which treats a
missing `HostConfig` or `Binds` as fatal (`errors.New`). -/
inductive MangleErr where
  | translate (e : PathError)
  | hostConfigNotFound
  | bindsNotFound

/-- The loop of the older `mangleDockerVolumes` variant over `[]string`. -/
def mangleBindsOld (tw : String → Except String String) (root : String) :
    List String → Except PathError (List String)
  | [] => .ok []
  | s :: ss =>
    match translateHostPath tw root ((splitString s ':').headI) with
    | .error e => .error e
    | .ok nh =>
      match mangleBindsOld tw root ss with
      | .error e => .error e
      | .ok ss' => .ok (String.intercalate ":" (nh :: (splitString s ':').tail) :: ss')

/-- Embedding of the older `mangleDockerVolumes` variant (the unnamed copy
of proxy.go in the tree): `HostConfig` must assert to a map and `Binds`
must assert to `[]string`, otherwise an error is returned. -/
def mangleDockerVolumesOld (tw : String → Except String String) (root : String)
    (body : List (String × GoVal)) : Except MangleErr (List (String × GoVal)) :=
  match mapGet body "HostConfig" with
  | some (.vobj hostConfig) =>
    match mapGet hostConfig "Binds" with
    | some (.vstrArr binds) =>
      match mangleBindsOld tw root binds with
      | .error e => .error (.translate e)
      | .ok newBinds =>
        .ok (mapSet body "HostConfig" (.vobj (mapSet hostConfig "Binds" (.vstrArr newBinds))))
    | _ => .error .bindsNotFound
  | _ => .error .hostConfigNotFound

/-- The per-element contract of the Docker bind rewrite: a string entry has
exactly its first colon-separated segment replaced by its translation, any
other entry is untouched. -/
def bindRewritten (tw : String → Except String String) (root : String) :
    GoVal → GoVal → Prop
  | .vstr s, b' =>
    ∃ nh, translateHostPath tw root ((splitString s ':').headI) = .ok nh ∧
      b' = .vstr (String.intercalate ":" (nh :: (splitString s ':').tail))
  | b, b' => b' = b

/-! ## Startup probe (`TestUpstreamSocket`, `main`) -/

/-- The observable outcome of the `client.Get("http://d/_ping")` probe:
either the dial/transport fails, or a response arrives carrying a status
code (and the outcome of closing its body). -/
inductive ProbeOutcome where
  | dialError (msg : String)
  | response (status : Nat) (closeErr : Option String)

/-- Embedding of `(p *podmanProxy) TestUpstreamSocket` (proxy.go), with a
returned `Option String` standing for Go's `error` result.  Note the
source line `if resp.StatusCode != http.StatusOK { return err }` returns
the `err` of `client.Get`, which is necessarily nil on that path. -/
def TestUpstreamSocket : ProbeOutcome → Option String
  | .dialError e => some e
  | .response status closeErr =>
    if status ≠ 200 then none
    else closeErr

/-- Outcome of the startup sequence in `main` after the proxy is built. -/
inductive StartupResult where
  | fatalExit (msg : String)
  | served

/-- Embedding of the tail of `main` (main.go): `TestUpstreamSocket` is run
before `Serve`; a non-nil error is fatal (`log.Fatalf` exits non-zero),
otherwise the listener starts serving. -/
def mainStartup (probe : ProbeOutcome) : StartupResult :=
  match TestUpstreamSocket probe with
  | some e => .fatalExit e
  | none => .served

/-! ## The raw byte forwarder (pkg/proxy/rawproxy.go) -/

/-- Unix error classes distinguished by `forwardData`: `errors.Is` against
`unix.EAGAIN` or `unix.EWOULDBLOCK`, or anything else. -/
inductive Errno where
  | eagain
  | ewouldblock
  | eother (msg : String)

/-- The would-block test `errors.Is(err, unix.EAGAIN) ||
errors.Is(err, unix.EWOULDBLOCK)`. -/
def wouldBlock : Errno → Bool
  | .eagain => true
  | .ewouldblock => true
  | .eother _ => false

/-- Outcome of `src.Read(*buffer)`: bytes read, or an error. -/
inductive ReadOutcome where
  | bytes (data : List UInt8)
  | rerr (e : Errno)

/-- Embedding of `forwardData` (rawproxy.go): `isSet` is
`readFds.IsSet(fd)`, `read` the outcome of `src.Read`, and `writeErr` the
error result `dst.Write` would produce for the read bytes. -/
def forwardData (isSet : Bool) (read : ReadOutcome) (writeErr : Option Errno) :
    Option Errno :=
  if isSet then
    match read with
    | .rerr e => if wouldBlock e then none else some e
    | .bytes data =>
      if data.length > 0 then
        match writeErr with
        | some e => some e
        | none => none
      else none
  else none

/-- The observable outcomes of one iteration of the `ProxyFileConn` loop:
the `unix.Select` result, the readiness of each descriptor and the
read/write outcomes on each side. -/
structure FwdEvent where
  selErr : Option Errno
  fd1Ready : Bool
  fd2Ready : Bool
  read1 : ReadOutcome
  read2 : ReadOutcome
  write1 : Option Errno
  write2 : Option Errno

/-- Embedding of the `for` loop of `ProxyFileConn` (rawproxy.go) over a
finite trace of iteration outcomes; `none` means the trace was exhausted
with the loop still running. -/
def proxyLoop : List FwdEvent → Option Errno
  | [] => none
  | ev :: rest =>
    match ev.selErr with
    | some e => some e
    | none =>
      match forwardData ev.fd1Ready ev.read1 ev.write1 with
      | some e => some e
      | none =>
        match forwardData ev.fd2Ready ev.read2 ev.write2 with
        | some e => some e
        | none => proxyLoop rest

/-! ## The Node implementation (index.mjs)

Values produced by `JSON.parse` (null, booleans, numbers, strings, arrays,
objects); property reads return `Option` with `none` for `undefined`. -/

inductive JsVal where
  | jnull
  | jbool (b : Bool)
  | jnum (s : String)
  | jstr (s : String)
  | jarr (xs : List JsVal)
  | jobj (kvs : List (String × JsVal))

/-- JavaScript property read `o[key]` (`none` = `undefined`). -/
def jGet : List (String × JsVal) → String → Option JsVal
  | [], _ => none
  | (k, v) :: rest, key => if k = key then some v else jGet rest key

/-- JavaScript property write `o[key] = v`. -/
def jSet : List (String × JsVal) → String → JsVal → List (String × JsVal)
  | [], key, v => [(key, v)]
  | (k, w) :: rest, key, v =>
    if k = key then (key, v) :: rest else (k, w) :: jSet rest key v

/-- Embedding of Node `path.posix.normalize`: same element resolution as
Go `path.Clean` (its `normalizeString` is the identical scan), but the
empty relative result keeps a trailing separator (`"./"`) and a trailing
separator of a non-empty result is preserved. -/
def nodeNormalize (s : String) : String :=
  if s = "" then "."
  else
    let cs := s.toList
    let rooted := decide (cs.head? = some '/')
    let trailing := decide (cs.getLast? = some '/')
    let body := List.intercalate ['/'] (cleanElems rooted [] (splitOnChar '/' cs))
    if rooted then
      if body = [] then "/"
      else String.mk ('/' :: body) ++ (if trailing then "/" else "")
    else
      if body = [] then (if trailing then "./" else ".")
      else String.mk body ++ (if trailing then "/" else "")

/-- Embedding of Node `path.posix.join(a, b)`: join the non-empty
arguments with `'/'` and normalize; no arguments gives `"."`. -/
def nodeJoin (a b : String) : String :=
  let parts := (if a = "" then [] else [a]) ++ (if b = "" then [] else [b])
  if parts = [] then "."
  else nodeNormalize (String.intercalate "/" parts)

/-- Errors a Node handler can observe from the rewrite pipeline: a thrown
`Error` (collaborator failure or the explicit BUG throw), or a `TypeError`
from calling a string method on a non-string. -/
inductive JsErr where
  | thrown (msg : String)
  | typeError

/-- Embedding of `translateHostPath` (index.mjs); `tw` is the external
`wslPathToWindowsPath` collaborator (`wslpath -aw` plus `trim()`).  Note
the Node variant strips the leading slash exactly once (`slice(1)`). -/
def jsTranslateHostPath (tw : String → Except String String)
    (sharedRoot hostPath : String) : Except JsErr String :=
  if hasPref hostPath "/mnt/wsl/" then .ok hostPath
  else
    match tw hostPath with
    | .error e => .error (.thrown e)
    | .ok winPath =>
      if hasPref winPath "\\\\wsl.localhost\\" then
        if ¬ hasPref hostPath "/" then
          .error (.thrown ("PODMAN WSL SERVICE BUG: unexpected path format, expected absolute path: "
            ++ hostPath))
        else .ok (nodeJoin sharedRoot (String.mk (hostPath.toList.drop 1)))
      else .ok winPath

/-- The loop of `patchVolumesLibpod` (index.mjs): every element's `source`
is translated, with no check of the element's `type`; an element that is
not an object, or whose `source` is not a string, makes `translateHostPath`
call `.startsWith` on a non-string, raising a `TypeError`. -/
def patchMounts (tw : String → Except String String) (root : String) :
    List JsVal → Except JsErr (List JsVal)
  | [] => .ok []
  | m :: ms =>
    match m with
    | .jobj kvs =>
      match jGet kvs "source" with
      | some (.jstr s) =>
        match jsTranslateHostPath tw root s with
        | .error e => .error e
        | .ok s' =>
          match patchMounts tw root ms with
          | .error e => .error e
          | .ok ms' => .ok (.jobj (jSet kvs "source" (.jstr s')) :: ms')
      | _ => .error .typeError
    | _ => .error .typeError

/-- Embedding of `patchVolumesLibpod` (index.mjs): if `body.mounts` is not
an array the body is returned unchanged, otherwise every element's
`source` is translated in place. -/
def patchVolumesLibpod (tw : String → Except String String) (root : String)
    (body : List (String × JsVal)) : Except JsErr (List (String × JsVal)) :=
  match jGet body "mounts" with
  | some (.jarr mounts) =>
    match patchMounts tw root mounts with
    | .error e => .error e
    | .ok mounts' => .ok (jSet body "mounts" (.jarr mounts'))
  | _ => .ok body

/-! ## The lifecycle manager (index.mjs): connection counter and idle timer -/

/-- The process-wide mutable state of index.mjs: `activeConnections` and
whether `shutdownTimer` currently holds an armed timer. -/
structure SrvState where
  activeConnections : Int
  shutdownTimer : Bool

/-- Embedding of `resetShutdownTimer` (index.mjs): clear any armed timer,
then arm a new one only when `shutdownTimeout > 0`. -/
def resetShutdownTimer (shutdownTimeout : Int) (st : SrvState) : SrvState :=
  let st1 := if st.shutdownTimer then { st with shutdownTimer := false } else st
  if shutdownTimeout > 0 then { st1 with shutdownTimer := true } else st1

/-- Embedding of the connection-arrival prologue shared by the request
handler and the `upgrade` handler: `activeConnections++`, then clear the
timer if one is armed. -/
def connAccept (st : SrvState) : SrvState :=
  let st1 := { st with activeConnections := st.activeConnections + 1 }
  if st1.shutdownTimer then { st1 with shutdownTimer := false } else st1

/-- Embedding of the `finish`/`close` handlers: `activeConnections--`,
then `resetShutdownTimer()` when the counter reached zero. -/
def connClose (shutdownTimeout : Int) (st : SrvState) : SrvState :=
  let st1 := { st with activeConnections := st.activeConnections - 1 }
  if st1.activeConnections = 0 then resetShutdownTimer shutdownTimeout st1 else st1

/-- A connection-accounting event: a connection is accepted (plain request
or upgrade), or a previously accepted connection closes. -/
inductive ConnEvent where
  | accept
  | close

/-- The event loop is single-threaded: a run is the fold of the handlers
over the sequence of events. -/
def runConnEvents (shutdownTimeout : Int) : SrvState → List ConnEvent → SrvState
  | st, [] => st
  | st, .accept :: evs => runConnEvents shutdownTimeout (connAccept st) evs
  | st, .close :: evs => runConnEvents shutdownTimeout (connClose shutdownTimeout st) evs

/-- The state after the `server.listen` callback ran `resetShutdownTimer`. -/
def listenStart (shutdownTimeout : Int) : SrvState :=
  resetShutdownTimer shutdownTimeout { activeConnections := 0, shutdownTimer := false }

/-- Well-formed event sequences: every `close` corresponds to a connection
accepted earlier (each `finish`/`close` handler fires once, for a
connection that was counted on accept); `n` is the number of connections
currently open. -/
def wfEvents : Nat → List ConnEvent → Bool
  | _, [] => true
  | n, .accept :: evs => wfEvents (n + 1) evs
  | 0, .close :: _ => false
  | n + 1, .close :: evs => wfEvents n evs

/-! ## The interception pipeline (`ServeHTTP`, proxy.go)

The version regex is `^/v\d+.(?:\d\.?)+/` (the dot after `\d+` is
unescaped, so it matches any character).  The matcher below implements it
with the regexp package's leftmost-first preference: greedy `\d+`, one
arbitrary non-newline character, then greedily one or more of
`\d\.?`, then a literal `/`. -/

/-- Matcher for the sub-pattern `(?:\d\.?)+/`, returning the remainder
after the final `/`.  An element is a digit with an optional following
dot; after each element, continuing with another element is preferred
over matching the closing `/`. -/
def reVerTail : List Char → Option (List Char)
  | [] => none
  | c :: '.' :: cs' =>
    if c.isDigit then
      match reVerTail cs' with
      | some r => some r
      | none =>
        match cs' with
        | '/' :: r => some r
        | _ => none
    else none
  | c :: cs =>
    if c.isDigit then
      match reVerTail cs with
      | some r => some r
      | none =>
        match cs with
        | '/' :: r => some r
        | _ => none
    else none

/-- Matcher for `\d*` followed by the unescaped `.` (any character except a
newline) and then `(?:\d\.?)+/`, entered after the first digit of `\d+`
was consumed; extending `\d+` is preferred, backtracking lets the
unescaped dot consume the current character. -/
def reVerDigits : List Char → Option (List Char)
  | [] => none
  | c :: cs =>
    if c.isDigit then
      match reVerDigits cs with
      | some r => some r
      | none => reVerTail cs
    else
      if c = '\n' then none else reVerTail cs

/-- The anchored match of `^/v\d+.(?:\d\.?)+/` against a path, returning
the suffix after the matched prefix. -/
def versionPrefixMatch (s : String) : Option String :=
  match s.toList with
  | '/' :: 'v' :: c :: cs => if c.isDigit then (reVerDigits cs).map String.mk else none
  | _ => none

/-- Embedding of the version normalization in `ServeHTTP`: when the regex
matches, `ReplaceAllString(path, "/")` replaces the matched prefix with
`/`. -/
def stripVersionPath (path : String) : String :=
  match versionPrefixMatch path with
  | some rest => "/" ++ rest
  | none => path

/-- The fields of an incoming request that the interception logic of
`ServeHTTP` reads: `r.Method`, `r.URL.Path`, the `Content-Type` header
(`""` when the header is absent, per `Header.Get`) and the request body. -/
structure Request where
  method : String
  urlPath : String
  contentType : String
  body : String

/-- What `ServeHTTP` does with a request before handing it to
`forwardRequest`: pass it through untouched, reply with an HTTP error, or
forward it with the rewritten body. -/
inductive ServeAction where
  | forwardUntouched
  | clientError (status : Nat)
  | forwardRewritten (newBody : List (String × GoVal))

/-- Embedding of the interception logic of `ServeHTTP` (proxy.go).  The
JSON decoder (`json.Decoder` with `UseNumber` into a
`map[string]interface` value) is the parameter `decode`.  The transport
error paths of reading/closing the body and re-marshalling (HTTP 500) are
outside this model: the body is taken as already read, and `json.Marshal`
cannot fail on decoded values. -/
def ServeHTTP (decode : String → Option (List (String × GoVal)))
    (tw : String → Except String String) (root : String) (req : Request) :
    ServeAction :=
  let path := stripVersionPath req.urlPath
  if req.method ≠ "POST" ∨ (path ≠ "/containers/create" ∧ path ≠ "/libpod/containers/create") then
    .forwardUntouched
  else if req.contentType ≠ "application/json" ∧ req.contentType ≠ "" then
    .forwardUntouched
  else
    match decode req.body with
    | none => .clientError 400
    | some bodyObj =>
      match (if hasPref path "/libpod" then mangleLibpodVolumes tw root bodyObj
             else mangleDockerVolumes tw root bodyObj) with
      | .error _ => .clientError 400
      | .ok newBody => .forwardRewritten newBody

/-! ## Lemmas about the path helpers -/

theorem splitOnChar_ne_nil (sep : Char) (l : List Char) : splitOnChar sep l ≠ [] := by
  cases l with
  | nil => simp [splitOnChar]
  | cons c cs =>
    simp only [splitOnChar]
    split
    · simp
    · split
      · simp
      · simp

theorem splitOnChar_cons_sep (sep : Char) (ys : List Char) :
    splitOnChar sep (sep :: ys) = [] :: splitOnChar sep ys := by
  simp [splitOnChar]

theorem splitOnChar_append_sep (sep : Char) (xs ys : List Char) :
    splitOnChar sep (xs ++ sep :: ys) = splitOnChar sep xs ++ splitOnChar sep ys := by
  induction xs with
  | nil => simp [splitOnChar]
  | cons c cs ih =>
    by_cases hc : c = sep
    · subst hc
      simp [splitOnChar_cons_sep, ih]
    · simp only [List.cons_append, splitOnChar, if_neg hc, List.append_eq]
      rw [ih]
      cases h : splitOnChar sep cs with
      | nil => exact absurd h (splitOnChar_ne_nil sep cs)
      | cons e es => simp

theorem splitOnChar_replicate_sep (sep : Char) (k : Nat) (ys : List Char) :
    splitOnChar sep (List.replicate k sep ++ ys) =
      List.replicate k [] ++ splitOnChar sep ys := by
  induction k with
  | zero => simp
  | succ n ih => simp [List.replicate_succ, List.cons_append, splitOnChar_cons_sep, ih]

theorem cleanElems_replicate_nil (rooted : Bool) (k : Nat) (ys : List (List Char)) :
    ∀ out, cleanElems rooted out (List.replicate k [] ++ ys) = cleanElems rooted out ys := by
  induction k with
  | zero => intro out; rfl
  | succ n ih =>
    intro out
    simp [List.replicate_succ, List.cons_append, cleanElems, ih]

theorem cleanElems_mid_replicate_nil (rooted : Bool) (k : Nat) (ys : List (List Char)) :
    ∀ xs out, cleanElems rooted out (xs ++ (List.replicate k [] ++ ys)) =
      cleanElems rooted out (xs ++ ys) := by
  intro xs
  induction xs with
  | nil => intro out; exact cleanElems_replicate_nil rooted k ys out
  | cons e es ih =>
    intro out
    simp only [List.cons_append, cleanElems]
    split
    · exact ih out
    · split
      · split
        · split
          · exact ih _
          · exact ih _
        · split
          · exact ih _
          · exact ih _
      · exact ih _

theorem pathCleanBody_mid_slashes (al q : List Char) (k : Nat) :
    pathCleanBody (al ++ '/' :: (List.replicate k '/' ++ q)) =
      pathCleanBody (al ++ '/' :: q) := by
  unfold pathCleanBody
  have hhead : (al ++ '/' :: (List.replicate k '/' ++ q)).head? = (al ++ '/' :: q).head? := by
    simp [List.head?_append]
  rw [hhead, splitOnChar_append_sep, splitOnChar_append_sep,
    splitOnChar_replicate_sep, ← List.append_assoc]
  rw [List.append_assoc]
  rw [cleanElems_mid_replicate_nil]

theorem pathCleanCore_mid_slashes (al q : List Char) (k : Nat) :
    pathCleanCore (al ++ '/' :: (List.replicate k '/' ++ q)) =
      pathCleanCore (al ++ '/' :: q) := by
  have hhead : (al ++ '/' :: (List.replicate k '/' ++ q)).head? = (al ++ '/' :: q).head? := by
    simp [List.head?_append]
  unfold pathCleanCore
  rw [hhead, pathCleanBody_mid_slashes]

theorem append_slash_ne_empty (a x : String) : a ++ "/" ++ x ≠ "" := by
  intro h
  have hd : (a ++ "/" ++ x).data = [] := by rw [h]
  simp [String.data_append] at hd

/-- When the second argument starts with `'/'`, Go `path.Join` gives the same
result whether all leading slashes are trimmed (`strings.TrimLeft`, as the
code does) or only the first one is stripped (as the spec words it). -/
theorem pathJoin_trimLeft_stripOnce (a p : String) (ha : a ≠ "")
    (hp : hasPref p "/" = true) :
    pathJoin a (trimLeftSlash p) = pathJoin a (stripOnceSlash p) := by
  obtain ⟨q, hq⟩ : ∃ q, p.data = '/' :: q := by
    unfold hasPref at hp
    rw [ List.isPrefixOf_iff_prefix] at hp
    obtain ⟨t, ht⟩ := hp
    exact ⟨t, by simpa [String.toList] using ht.symm⟩
  have htrim : trimLeftSlash p = String.mk (q.dropWhile (fun c => c == '/')) := by
    unfold trimLeftSlash
    simp [String.toList, hq]
  have hstrip : stripOnceSlash p = String.mk q := by
    unfold stripOnceSlash
    rw [if_pos hp]
    simp [String.toList, hq]
  have hqdec : q = q.takeWhile (fun c => c == '/') ++ q.dropWhile (fun c => c == '/') :=
    (List.takeWhile_append_dropWhile _ _).symm
  have hrep : q.takeWhile (fun c => c == '/') =
      List.replicate (q.takeWhile (fun c => c == '/')).length '/' := by
    apply List.eq_replicate_of_mem
    intro b hb
    have hb' := List.mem_takeWhile_imp hb
    simpa using hb'
  unfold pathJoin
  rw [if_pos ha, if_pos ha]
  unfold pathClean
  rw [if_neg (append_slash_ne_empty a _), if_neg (append_slash_ne_empty a _)]
  rw [htrim, hstrip]
  have h1 : (a ++ "/" ++ String.mk (q.dropWhile (fun c => c == '/'))).toList
      = a.data ++ '/' :: q.dropWhile (fun c => c == '/') := by
    simp [String.toList, String.data_append]
  have h2 : (a ++ "/" ++ String.mk q).toList = a.data ++ '/' :: q := by
    simp [String.toList, String.data_append]
  rw [h1, h2]
  conv_rhs => rw [hqdec, hrep]
  exact (pathCleanCore_mid_slashes a.data (q.dropWhile (fun c => c == '/'))
    (q.takeWhile (fun c => c == '/')).length).symm

theorem hasPref_trans (p r pre : String) (h1 : hasPref r pre = true)
    (h2 : hasPref p r = true) : hasPref p pre = true := by
  unfold hasPref at h1 h2 ⊢
  rw [ List.isPrefixOf_iff_prefix] at h1 h2 ⊢
  exact h1.trans h2

theorem getSharedMountpoint_ne_empty (d : String) : getSharedMountpoint d ≠ "" := by
  unfold getSharedMountpoint
  intro h
  have hd := congrArg String.data h
  simp only [String.data_append] at hd
  have hlit : ("/mnt/wsl/distro-roots/" : String).data ≠ [] := by decide
  exact hlit (List.append_eq_nil.mp hd).1

theorem getSharedMountpoint_starts_mnt_wsl (d : String) :
    hasPref (getSharedMountpoint d) "/mnt/wsl/" = true := by
  unfold hasPref getSharedMountpoint
  rw [ List.isPrefixOf_iff_prefix]
  have h1 : ("/mnt/wsl/" : String).toList <+: ("/mnt/wsl/distro-roots/" : String).toList := by
    decide
  have h2 : ("/mnt/wsl/distro-roots/" : String).toList <+:
      ("/mnt/wsl/distro-roots/" ++ d).toList := by
    show ("/mnt/wsl/distro-roots/" : String).data <+: ("/mnt/wsl/distro-roots/" ++ d).data
    rw [String.data_append]
    exact List.prefix_append _ _
  exact h1.trans h2

/-- C6: for every path `p` that already begins with the shared-root prefix
(the shared root being `getSharedMountpoint d` for the detected distro `d`,
which itself begins with the shared-mount prefix `/mnt/wsl/`),
`translateHostPath` returns `p` unchanged and no error: translating an
already-translated path is a no-op. -/
theorem c6_translate_already_shared_noop (tw : String → Except String String)
    (d p : String) (hp : hasPref p (getSharedMountpoint d) = true) :
    translateHostPath tw (getSharedMountpoint d) p = .ok p := by
  have h := hasPref_trans p (getSharedMountpoint d) "/mnt/wsl/"
    (getSharedMountpoint_starts_mnt_wsl d) hp
  unfold translateHostPath
  rw [if_pos h]

/-- Witness for C6 at a concrete already-shared path. -/
theorem c6_witness :
    translateHostPath (fun _ => Except.error "collaborator must not be needed")
      (getSharedMountpoint "Ubuntu") "/mnt/wsl/distro-roots/Ubuntu/etc" =
      .ok "/mnt/wsl/distro-roots/Ubuntu/etc" :=
  c6_translate_already_shared_noop _ "Ubuntu" "/mnt/wsl/distro-roots/Ubuntu/etc" (by decide)

/-- C2: for every host path `p` that does not begin with the shared-mount
prefix `/mnt/wsl/`, `translateHostPath` consults the external
path-conversion collaborator `tw`: a collaborator error propagates; when
the converted result begins with the local-filesystem prefix
`\\wsl.localhost\` the function rejects non-absolute `p` with the
`badPathFormat` error and otherwise returns the shared root path-joined
with `p` with its leading slash stripped once; when the converted result
does not begin with that prefix it is returned unchanged with no error. -/
theorem c2_translate_cases (tw : String → Except String String) (d p : String)
    (hm : hasPref p "/mnt/wsl/" = false) :
    (∀ e, tw p = .error e →
      translateHostPath tw (getSharedMountpoint d) p = .error (.collaborator e)) ∧
    (∀ w, tw p = .ok w → hasPref w "\\\\wsl.localhost\\" = true →
      (hasPref p "/" = false →
        translateHostPath tw (getSharedMountpoint d) p = .error (.badPathFormat p)) ∧
      (hasPref p "/" = true →
        translateHostPath tw (getSharedMountpoint d) p =
          .ok (pathJoin (getSharedMountpoint d) (stripOnceSlash p)))) ∧
    (∀ w, tw p = .ok w → hasPref w "\\\\wsl.localhost\\" = false →
      translateHostPath tw (getSharedMountpoint d) p = .ok w) := by
  refine ⟨?_, ?_, ?_⟩
  · intro e he
    simp [translateHostPath, hm, he]
  · intro w hw hl
    constructor
    · intro habs
      simp [translateHostPath, hm, hw, hl, habs]
    · intro habs
      rw [← pathJoin_trimLeft_stripOnce (getSharedMountpoint d) p
        (getSharedMountpoint_ne_empty d) habs]
      simp [translateHostPath, hm, hw, hl, habs]
  · intro w hw hl
    simp [translateHostPath, hm, hw, hl]

/-- Witness for C2: a WSL-local conversion result at a concrete absolute
host path lands in the shared root. -/
theorem c2_witness :
    translateHostPath (fun _ => Except.ok "\\\\wsl.localhost\\Ubuntu\\home\\u\\data")
      (getSharedMountpoint "Ubuntu") "/home/u/data" =
      .ok (pathJoin (getSharedMountpoint "Ubuntu") (stripOnceSlash "/home/u/data")) :=
  ((c2_translate_cases (fun _ => Except.ok "\\\\wsl.localhost\\Ubuntu\\home\\u\\data")
      "Ubuntu" "/home/u/data" (by decide)).2.1
    "\\\\wsl.localhost\\Ubuntu\\home\\u\\data" rfl (by decide)).2 (by decide)

/-! ## Claims about the body rewriters -/

theorem mapGet_decoded (body : List (String × GoVal)) (k : String)
    (h : objDecoded body = true) :
    ∀ v, mapGet body k = some v → v.isDecoded = true := by
  induction body with
  | nil => intro v hv; simp [mapGet] at hv
  | cons kv rest ih =>
    obtain ⟨k', v'⟩ := kv
    intro v hv
    simp only [objDecoded, Bool.and_eq_true] at h
    simp only [mapGet] at hv
    by_cases hk : k' = k
    · rw [if_pos hk] at hv
      cases hv
      exact h.1
    · rw [if_neg hk] at hv
      exact ih h.2 v hv

/-- On any JSON-decoded body the type assertion in `mangleLibpodVolumes`
fails, so the function returns the body unchanged: the libpod rewrite is
dead code for every body the server can actually decode. -/
theorem mangleLibpodVolumes_decoded_noop (tw : String → Except String String)
    (root : String) (body : List (String × GoVal)) (h : objDecoded body = true) :
    mangleLibpodVolumes tw root body = .ok body := by
  unfold mangleLibpodVolumes
  cases hv : mapGet body "mounts" with
  | none => rfl
  | some v =>
    have hd := mapGet_decoded body "mounts" h v hv
    cases v <;> first | rfl | (simp [GoVal.isDecoded] at hd)

/-- C1 (refuted; code bug): on the JSON-decoded body containing a single
bind mount with source `/home/user/data`, `mangleLibpodVolumes` returns
the body unchanged — the assertion on `[]map[string]string` never matches
a decoded `[]interface` slice — even though the path translator maps that
source to a different path under the shared root, which the claim (and the
Node implementation) say should be substituted. -/
theorem c1_libpod_bind_not_translated :
    mangleLibpodVolumes (fun _ => Except.ok "\\\\wsl.localhost\\Ubuntu\\home\\user\\data")
      (getSharedMountpoint "Ubuntu")
      [("mounts", GoVal.varr [GoVal.vobj [("type", GoVal.vstr "bind"),
        ("source", GoVal.vstr "/home/user/data")]])] =
      .ok [("mounts", GoVal.varr [GoVal.vobj [("type", GoVal.vstr "bind"),
        ("source", GoVal.vstr "/home/user/data")]])] ∧
    translateHostPath (fun _ => Except.ok "\\\\wsl.localhost\\Ubuntu\\home\\user\\data")
      (getSharedMountpoint "Ubuntu") "/home/user/data" =
      .ok "/mnt/wsl/distro-roots/Ubuntu/home/user/data" :=
  ⟨rfl, rfl⟩

/-- C7 amended, Go side: whenever the `mangleLibpodVolumes` loop succeeds,
every entry whose `type` is not `"bind"` is returned completely unchanged
(in particular its `source` is never mutated). -/
theorem c7_go_nonbind_mounts_preserved (tw : String → Except String String)
    (root : String) (ms ms' : List (List (String × String)))
    (h : mangleMounts tw root ms = .ok ms') :
    List.Forall₂ (fun m m' => smapGet m "type" ≠ "bind" → m' = m) ms ms' := by
  induction ms generalizing ms' with
  | nil =>
    unfold mangleMounts at h
    cases h
    exact List.Forall₂.nil
  | cons m rest ih =>
    unfold mangleMounts at h
    by_cases ht : smapGet m "type" ≠ "bind"
    · rw [if_pos ht] at h
      cases hr : mangleMounts tw root rest with
      | error e => rw [hr] at h; exact Except.noConfusion h
      | ok rs =>
        rw [hr] at h
        cases h
        exact List.Forall₂.cons (fun _ => rfl) (ih rs hr)
    · rw [if_neg ht] at h
      cases htr : translateHostPath tw root (smapGet m "source") with
      | error e => rw [htr] at h; exact Except.noConfusion h
      | ok nh =>
        rw [htr] at h
        cases hr : mangleMounts tw root rest with
        | error e => rw [hr] at h; exact Except.noConfusion h
        | ok rs =>
          rw [hr] at h
          cases h
          exact List.Forall₂.cons (fun hc => (ht hc).elim) (ih rs hr)

/-- Witness for the amended C7 on a concrete non-bind mount. -/
theorem c7_go_witness :
    List.Forall₂ (fun m m' => smapGet m "type" ≠ "bind" → m' = m)
      [[("type", "volume"), ("source", "/home/u/data")]]
      [[("type", "volume"), ("source", "/home/u/data")]] :=
  c7_go_nonbind_mounts_preserved (fun _ => Except.error "unused") "" _ _ rfl

theorem mangleBinds_ok (tw : String → Except String String) (root : String)
    (binds : List GoVal)
    (htr : ∀ s, GoVal.vstr s ∈ binds →
      ∃ nh, translateHostPath tw root ((splitString s ':').headI) = .ok nh) :
    ∃ newBinds, mangleBinds tw root binds = .ok newBinds ∧
      List.Forall₂ (bindRewritten tw root) binds newBinds := by
  induction binds with
  | nil => exact ⟨[], rfl, List.Forall₂.nil⟩
  | cons b bs ih =>
    obtain ⟨nbs, hnbs, hf⟩ := ih (fun s hs => htr s (List.mem_cons_of_mem _ hs))
    cases b with
    | vstr s =>
      obtain ⟨nh, hnh⟩ := htr s (List.mem_cons_self _ _)
      refine ⟨.vstr (String.intercalate ":" (nh :: (splitString s ':').tail)) :: nbs, ?_, ?_⟩
      · simp only [mangleBinds, hnh, hnbs]
      · exact List.Forall₂.cons ⟨nh, hnh, rfl⟩ hf
    | vnull => exact ⟨.vnull :: nbs, by simp only [mangleBinds, hnbs], List.Forall₂.cons rfl hf⟩
    | vbool x => exact ⟨.vbool x :: nbs, by simp only [mangleBinds, hnbs], List.Forall₂.cons rfl hf⟩
    | vnum x => exact ⟨.vnum x :: nbs, by simp only [mangleBinds, hnbs], List.Forall₂.cons rfl hf⟩
    | varr x => exact ⟨.varr x :: nbs, by simp only [mangleBinds, hnbs], List.Forall₂.cons rfl hf⟩
    | vobj x => exact ⟨.vobj x :: nbs, by simp only [mangleBinds, hnbs], List.Forall₂.cons rfl hf⟩
    | vstrArr x => exact ⟨.vstrArr x :: nbs, by simp only [mangleBinds, hnbs], List.Forall₂.cons rfl hf⟩
    | vmapsArr x => exact ⟨.vmapsArr x :: nbs, by simp only [mangleBinds, hnbs], List.Forall₂.cons rfl hf⟩

/-- C4: when every string entry's host segment translates, the current
Docker rewrite succeeds and produces a bind array of the same length, in
the same order, with non-string entries identical and string entries equal
to the original with exactly the first colon-separated segment replaced by
its translation. -/
theorem c4_docker_binds_shape (tw : String → Except String String) (root : String)
    (body hostConfig : List (String × GoVal)) (binds : List GoVal)
    (hhc : mapGet body "HostConfig" = some (.vobj hostConfig))
    (hb : mapGet hostConfig "Binds" = some (.varr binds))
    (htr : ∀ s, GoVal.vstr s ∈ binds →
      ∃ nh, translateHostPath tw root ((splitString s ':').headI) = .ok nh) :
    ∃ newBinds,
      mangleDockerVolumes tw root body =
        .ok (mapSet body "HostConfig" (.vobj (mapSet hostConfig "Binds" (.varr newBinds)))) ∧
      List.Forall₂ (bindRewritten tw root) binds newBinds := by
  obtain ⟨nb, hnb, hf⟩ := mangleBinds_ok tw root binds htr
  exact ⟨nb, by simp only [mangleDockerVolumes, hhc, hb, hnb], hf⟩

/-- Witness for C4 at a concrete interleaved bind array. -/
theorem c4_witness :
    ∃ newBinds,
      mangleDockerVolumes (fun _ => Except.ok "\\\\wsl.localhost\\U\\home\\u\\data")
        (getSharedMountpoint "U")
        [("HostConfig", GoVal.vobj [("Binds",
          GoVal.varr [GoVal.vstr "/home/u/data:/data:ro", GoVal.vnum "5"])])] =
        .ok (mapSet [("HostConfig", GoVal.vobj [("Binds",
          GoVal.varr [GoVal.vstr "/home/u/data:/data:ro", GoVal.vnum "5"])])] "HostConfig"
          (GoVal.vobj (mapSet [("Binds",
            GoVal.varr [GoVal.vstr "/home/u/data:/data:ro", GoVal.vnum "5"])] "Binds"
            (GoVal.varr newBinds)))) ∧
      List.Forall₂
        (bindRewritten (fun _ => Except.ok "\\\\wsl.localhost\\U\\home\\u\\data")
          (getSharedMountpoint "U"))
        [GoVal.vstr "/home/u/data:/data:ro", GoVal.vnum "5"] newBinds := by
  refine c4_docker_binds_shape _ _ _ _ _ rfl rfl ?_
  intro s hs
  simp only [List.mem_cons, List.not_mem_nil, or_false] at hs
  rcases hs with hs | hs
  · cases hs
    exact ⟨"/mnt/wsl/distro-roots/U/home/u/data", rfl⟩
  · exact absurd hs (by intro h; exact GoVal.noConfusion h)

/-- C5 amended, current variant: a missing `HostConfig`, or a present
`HostConfig` object with no `Binds` key, makes the current Docker rewrite
return the body unchanged with a nil error. -/
theorem c5_docker_missing_passthrough (tw : String → Except String String)
    (root : String) (body : List (String × GoVal)) :
    (mapGet body "HostConfig" = none → mangleDockerVolumes tw root body = .ok body) ∧
    (∀ hostConfig, mapGet body "HostConfig" = some (.vobj hostConfig) →
      mapGet hostConfig "Binds" = none → mangleDockerVolumes tw root body = .ok body) := by
  constructor
  · intro h
    simp only [mangleDockerVolumes, h]
  · intro hostConfig hhc hb
    simp only [mangleDockerVolumes, hhc, hb]

/-- Witness for the amended C5 at the empty decoded body. -/
theorem c5_witness :
    mangleDockerVolumes (fun _ => Except.error "unused") (getSharedMountpoint "U") [] =
      .ok [] :=
  (c5_docker_missing_passthrough _ _ []).1 rfl

/-- C5 counterexample: the older Docker rewrite variant returns an error —
not the unchanged body — on the decoded empty body, whose `HostConfig`
field is missing. -/
theorem c5_old_variant_errors :
    mangleDockerVolumesOld (fun _ => Except.error "unused") (getSharedMountpoint "U") [] =
      .error .hostConfigNotFound :=
  rfl

/-- C4 counterexample: the older Docker rewrite variant does not succeed on
any JSON-decoded interleaved bind array — its `[]string` type assertion
fails on a decoded `[]interface` slice and it returns an error. -/
theorem c4_old_variant_errors :
    mangleDockerVolumesOld (fun _ => Except.ok "\\\\wsl.localhost\\U\\home\\u\\data")
      (getSharedMountpoint "U")
      [("HostConfig", GoVal.vobj [("Binds",
        GoVal.varr [GoVal.vstr "/home/u/data:/data:ro", GoVal.vnum "5"])])] =
      .error .bindsNotFound :=
  rfl

/-- C3 (refuted; code bug): a dial failure is fatal before serving, as the
claim states, but a probe response whose status is not OK makes
`TestUpstreamSocket` return the nil error of `client.Get` (its `return
err` in the status branch), so `main` proceeds to serve instead of exiting
fatally. -/
theorem c3_nonok_ping_not_fatal :
    TestUpstreamSocket (.response 500 none) = none ∧
    mainStartup (.response 500 none) = .served ∧
    TestUpstreamSocket (.dialError "connection refused") = some "connection refused" ∧
    mainStartup (.dialError "connection refused") = .fatalExit "connection refused" :=
  ⟨rfl, rfl, rfl, rfl⟩

/-- C8: a would-block read is not an error and the loop continues; every
non-would-block read failure and every write failure terminates the loop
and is the error returned to the caller. -/
theorem c8_forwarder_error_policy :
    (∀ e w, wouldBlock e = true → forwardData true (.rerr e) w = none) ∧
    (∀ e w, wouldBlock e = false → forwardData true (.rerr e) w = some e) ∧
    (∀ d e, 0 < d.length → forwardData true (.bytes d) (some e) = some e) ∧
    (∀ ev rest, ev.selErr = none →
      forwardData ev.fd1Ready ev.read1 ev.write1 = none →
      forwardData ev.fd2Ready ev.read2 ev.write2 = none →
      proxyLoop (ev :: rest) = proxyLoop rest) ∧
    (∀ ev rest e, ev.selErr = none →
      forwardData ev.fd1Ready ev.read1 ev.write1 = some e →
      proxyLoop (ev :: rest) = some e) ∧
    (∀ ev rest e, ev.selErr = none →
      forwardData ev.fd1Ready ev.read1 ev.write1 = none →
      forwardData ev.fd2Ready ev.read2 ev.write2 = some e →
      proxyLoop (ev :: rest) = some e) := by
  refine ⟨?_, ?_, ?_, ?_, ?_, ?_⟩
  · intro e w h
    simp [forwardData, h]
  · intro e w h
    simp [forwardData, h]
  · intro d e h
    simp [forwardData, h]
  · intro ev rest h1 h2 h3
    simp [proxyLoop, h1, h2, h3]
  · intro ev rest e h1 h2
    simp [proxyLoop, h1, h2]
  · intro ev rest e h1 h2 h3
    simp [proxyLoop, h1, h2, h3]

/-- Witness for C8 at concrete read/write outcomes. -/
theorem c8_witness :
    forwardData true (.rerr .eagain) none = none ∧
    forwardData true (.rerr (.eother "EOF")) none = some (.eother "EOF") ∧
    forwardData true (.bytes [1]) (some (.eother "broken pipe")) =
      some (.eother "broken pipe") :=
  ⟨c8_forwarder_error_policy.1 .eagain none rfl,
   c8_forwarder_error_policy.2.1 (.eother "EOF") none rfl,
   c8_forwarder_error_policy.2.2.1 [1] (.eother "broken pipe") (by decide)⟩

/-- C7 counterexample: the Node libpod rewrite translates the `source` of a
mount whose `type` is `"volume"` (not `"bind"`), mutating it. -/
theorem c7_node_mutates_nonbind_source :
    patchVolumesLibpod (fun _ => Except.ok "\\\\wsl.localhost\\Ubuntu\\home\\u\\data")
      "/mnt/wsl/distro-roots/Ubuntu"
      [("mounts", JsVal.jarr [JsVal.jobj [("type", JsVal.jstr "volume"),
        ("source", JsVal.jstr "/home/u/data")]])] =
      .ok [("mounts", JsVal.jarr [JsVal.jobj [("type", JsVal.jstr "volume"),
        ("source", JsVal.jstr "/mnt/wsl/distro-roots/Ubuntu/home/u/data")]])] ∧
    ("/mnt/wsl/distro-roots/Ubuntu/home/u/data" : String) ≠ "/home/u/data" :=
  ⟨rfl, by decide⟩

theorem resetShutdownTimer_count (t : Int) (st : SrvState) :
    (resetShutdownTimer t st).activeConnections = st.activeConnections := by
  cases h : st.shutdownTimer <;> by_cases h2 : t > 0 <;>
    simp [resetShutdownTimer, h, h2]

theorem resetShutdownTimer_timer (t : Int) (st : SrvState) :
    (resetShutdownTimer t st).shutdownTimer = decide (t > 0) := by
  cases h : st.shutdownTimer <;> by_cases h2 : t > 0 <;>
    simp [resetShutdownTimer, h, h2]

theorem connAccept_count (st : SrvState) :
    (connAccept st).activeConnections = st.activeConnections + 1 := by
  cases h : st.shutdownTimer <;> simp [connAccept, h]

theorem connAccept_timer (st : SrvState) : (connAccept st).shutdownTimer = false := by
  cases h : st.shutdownTimer <;> simp [connAccept, h]

theorem connClose_count (t : Int) (st : SrvState) :
    (connClose t st).activeConnections = st.activeConnections - 1 := by
  by_cases h : st.activeConnections - 1 = 0 <;>
    simp [connClose, h, resetShutdownTimer_count]

theorem connClose_timer_zero (t : Int) (st : SrvState)
    (h : st.activeConnections - 1 = 0) :
    (connClose t st).shutdownTimer = decide (t > 0) := by
  simp [connClose, h, resetShutdownTimer_timer]

theorem connClose_timer_pos (t : Int) (st : SrvState)
    (h : st.activeConnections - 1 ≠ 0) :
    (connClose t st).shutdownTimer = st.shutdownTimer := by
  simp [connClose, h]

theorem runConnEvents_invariant (t : Int) (ht : 0 < t) :
    ∀ (evs : List ConnEvent) (n : Nat) (st : SrvState),
      wfEvents n evs = true →
      st.activeConnections = (n : Int) →
      st.shutdownTimer = decide (n = 0) →
      ∃ m : Nat, (runConnEvents t st evs).activeConnections = (m : Int) ∧
        (runConnEvents t st evs).shutdownTimer = decide (m = 0) := by
  intro evs
  induction evs with
  | nil =>
    intro n st _ hc htm
    exact ⟨n, hc, htm⟩
  | cons ev rest ih =>
    intro n st hw hc htm
    cases ev with
    | accept =>
      simp only [wfEvents] at hw
      refine ih (n + 1) (connAccept st) hw ?_ ?_
      · rw [connAccept_count, hc]
        push_cast
        ring
      · rw [connAccept_timer]
        simp
    | close =>
      cases n with
      | zero => simp [wfEvents] at hw
      | succ k =>
        simp only [wfEvents] at hw
        refine ih k (connClose t st) hw ?_ ?_
        · rw [connClose_count, hc]
          push_cast
          ring
        · by_cases hk : k = 0

          · subst hk
            rw [connClose_timer_zero t st (by rw [hc]; simp)]
            simpa using ht
          · rw [connClose_timer_pos t st ?_, htm]
            · simp [hk]
            · rw [hc]
              intro hcon
              apply hk
              omega

/-- C9: for every well-formed sequence of accept/close events (with the
idle timeout enabled), the active-connection counter never becomes
negative and the idle timer is armed exactly when the counter is zero;
moreover a close that brings the counter to zero arms the timer and an
accept always leaves it disarmed. -/
theorem c9_counter_invariant (t : Int) (ht : 0 < t) (evs : List ConnEvent)
    (hw : wfEvents 0 evs = true) :
    0 ≤ (runConnEvents t (listenStart t) evs).activeConnections ∧
    ((runConnEvents t (listenStart t) evs).shutdownTimer = true ↔
      (runConnEvents t (listenStart t) evs).activeConnections = 0) ∧
    (∀ st : SrvState, st.activeConnections = 1 →
      (connClose t st).shutdownTimer = true) ∧
    (∀ st : SrvState, (connAccept st).shutdownTimer = false) := by
  have hstart_c : (listenStart t).activeConnections = ((0 : Nat) : Int) := by
    simp [listenStart, resetShutdownTimer_count]
  have hstart_t : (listenStart t).shutdownTimer = decide ((0 : Nat) = 0) := by
    rw [listenStart, resetShutdownTimer_timer]
    simpa using ht
  obtain ⟨m, hm, htm⟩ := runConnEvents_invariant t ht evs 0 (listenStart t) hw hstart_c hstart_t
  refine ⟨?_, ?_, ?_, ?_⟩
  · rw [hm]
    positivity
  · rw [hm, htm]
    constructor
    · intro h
      have : m = 0 := by simpa using h
      simp [this]
    · intro h
      have : m = 0 := by exact_mod_cast h
      simp [this]
  · intro st hst
    rw [connClose_timer_zero t st (by rw [hst]; ring)]
    simpa using ht
  · intro st
    exact connAccept_timer st

/-- Witness for C9 at a concrete event sequence. -/
theorem c9_witness :
    0 ≤ (runConnEvents 1 (listenStart 1) [ConnEvent.accept, ConnEvent.close]).activeConnections ∧
    ((runConnEvents 1 (listenStart 1) [ConnEvent.accept, ConnEvent.close]).shutdownTimer = true ↔
      (runConnEvents 1 (listenStart 1) [ConnEvent.accept, ConnEvent.close]).activeConnections = 0) ∧
    (∀ st : SrvState, st.activeConnections = 1 →
      (connClose 1 st).shutdownTimer = true) ∧
    (∀ st : SrvState, (connAccept st).shutdownTimer = false) :=
  c9_counter_invariant 1 (by decide) [ConnEvent.accept, ConnEvent.close] (by decide)

/-- C10: a POST to a container-creation endpoint with no Content-Type
header at all (`Header.Get` returns `""`) is treated as JSON — the body is
decoded and rewritten, an undecodable body draws a 400 client error — and
the content-type guard passes a request through unmodified only for a
non-empty content type different from `application/json`. -/
theorem c10_no_content_type_is_json (decode : String → Option (List (String × GoVal)))
    (tw : String → Except String String) (root : String) (req : Request)
    (hm : req.method = "POST")
    (hp : stripVersionPath req.urlPath = "/containers/create" ∨
      stripVersionPath req.urlPath = "/libpod/containers/create") :
    (req.contentType = "" →
      (decode req.body = none → ServeHTTP decode tw root req = .clientError 400) ∧
      (∀ obj, decode req.body = some obj →
        ServeHTTP decode tw root req =
          match (if hasPref (stripVersionPath req.urlPath) "/libpod"
                 then mangleLibpodVolumes tw root obj
                 else mangleDockerVolumes tw root obj) with
          | .error _ => .clientError 400
          | .ok newBody => .forwardRewritten newBody)) ∧
    (req.contentType ≠ "" → req.contentType ≠ "application/json" →
      ServeHTTP decode tw root req = .forwardUntouched) := by
  have hcond : ¬(req.method ≠ "POST" ∨
      (stripVersionPath req.urlPath ≠ "/containers/create" ∧
        stripVersionPath req.urlPath ≠ "/libpod/containers/create")) := by
    push_neg
    refine ⟨hm, ?_⟩
    intro hc
    rcases hp with hp | hp
    · exact absurd hp hc
    · exact hp
  constructor
  · intro hct
    have hguard : ¬(req.contentType ≠ "application/json" ∧ req.contentType ≠ "") := by
      intro h
      exact h.2 hct
    constructor
    · intro hdec
      simp only [ServeHTTP, if_neg hcond, if_neg hguard, hdec]
    · intro obj hdec
      simp only [ServeHTTP, if_neg hcond, if_neg hguard, hdec]
  · intro h1 h2
    simp only [ServeHTTP, if_neg hcond, if_pos (And.intro h2 h1)]

/-- Witness for C10: a versioned creation path with no Content-Type header
and an undecodable body draws a 400, and a non-JSON content type is passed
through. -/
theorem c10_witness :
    ServeHTTP (fun _ => none) (fun _ => Except.ok "") (getSharedMountpoint "U")
      { method := "POST", urlPath := "/v1.41/containers/create",
        contentType := "", body := "not json" } = .clientError 400 ∧
    ServeHTTP (fun _ => none) (fun _ => Except.ok "") (getSharedMountpoint "U")
      { method := "POST", urlPath := "/v1.41/containers/create",
        contentType := "text/plain", body := "not json" } = .forwardUntouched :=
  ⟨((c10_no_content_type_is_json (fun _ => none) (fun _ => Except.ok "")
      (getSharedMountpoint "U") _ rfl (Or.inl (by decide))).1 rfl).1 rfl,
   (c10_no_content_type_is_json (fun _ => none) (fun _ => Except.ok "")
      (getSharedMountpoint "U") _ rfl (Or.inl (by decide))).2
    (by decide) (by decide)⟩

end PodmanWsl
